import Mathlib

/-!
Verification of the msa-rpi-server bus/backend bridge.

Shallow embedding of:
- the frame codec of `src/py/read_i2c.py` / `src/c/iot_informer/rpi_server_iot_informer.py`
  (`read_i2c_string_block`, `send_i2c_status`),
- the uplink main loop of `read_i2c.py` (comma split and forwarding via `send_to_server`),
- the downlink loop of `rpi_server_iot_informer.py`
  (`get_latest_bathroom_status`, `main`),
- the backend route handlers of `api/routes/sensors.py` (`add`, `get`).

Bytes are modelled as `Nat` (Python iterates an i2c block as a list of small ints);
the sentinel byte is `35` (`ord '#'`). A run of the decoder is modelled against the
finite list of blocks the bus hands out, in order; returning `none` on exhaustion of
that list means the Python loop is still spinning after consuming those blocks.
-/

namespace MsaRpi

/-- Sentinel byte: the code compares `chr(b) == '#'`; `ord '#' = 35`. -/
def sentinel : Nat := 35

/-- Inner `for b in block` loop of `read_i2c_string_block`: scan one block left to
right; on the first sentinel byte return (`.inl`) the accumulator collected so far,
otherwise append each byte (`data_bytes.append(b)`) and report (`.inr`) the grown
accumulator for the next block read. -/
def scanBytes (acc : List Nat) : List Nat → List Nat ⊕ List Nat
  | [] => .inr acc
  | b :: bs => if b = sentinel then .inl acc else scanBytes (acc ++ [b]) bs

/-- `read_i2c_string_block` of `read_i2c.py` (identical in
`rpi_server_iot_informer.py`): repeatedly read a block from the bus and scan it,
starting from the accumulator `acc` (the call site uses `[]`, Python's fresh
`data_bytes = []`). The `blocks` argument is the list of blocks the bus returns, in
order; `some out` means the Python function returned the bytes `out`, `none` means
it consumed every listed block without meeting a sentinel and is still looping. -/
def read_i2c_string_block (acc : List Nat) : List (List Nat) → Option (List Nat)
  | [] => none
  | blk :: rest =>
    match scanBytes acc blk with
    | .inl out => some out
    | .inr acc2 => read_i2c_string_block acc2 rest

/-- Predicate selecting non-sentinel bytes; `takeWhile keepByte` is the segment a
decode accumulates before the first sentinel. -/
def keepByte (b : Nat) : Bool := b ≠ sentinel

theorem keepByte_sentinel : keepByte sentinel = false := by
  simp [keepByte]

theorem keepByte_of_ne {a : Nat} (h : a ≠ sentinel) : keepByte a = true := by
  simp [keepByte, h]

theorem takeWhile_keepByte_stop {l₁ : List Nat} (l₂ : List Nat) (h : sentinel ∈ l₁) :
    (l₁ ++ l₂).takeWhile keepByte = l₁.takeWhile keepByte := by
  induction l₁ with
  | nil => cases h
  | cons a as ih =>
    by_cases ha : a = sentinel
    · subst ha
      rw [List.cons_append, List.takeWhile_cons, List.takeWhile_cons, keepByte_sentinel]
      simp
    · have h' : sentinel ∈ as := by
        cases List.mem_cons.1 h with
        | inl hh => exact absurd hh.symm ha
        | inr hh => exact hh
      rw [List.cons_append, List.takeWhile_cons, List.takeWhile_cons,
        keepByte_of_ne ha, ih h']

theorem takeWhile_keepByte_pass {l₁ : List Nat} (l₂ : List Nat) (h : sentinel ∉ l₁) :
    (l₁ ++ l₂).takeWhile keepByte = l₁ ++ l₂.takeWhile keepByte := by
  induction l₁ with
  | nil => rfl
  | cons a as ih =>
    have ha : a ≠ sentinel := fun hh => h (hh ▸ List.mem_cons_self a as)
    have h' : sentinel ∉ as := fun hh => h (List.mem_cons_of_mem a hh)
    rw [List.cons_append, List.takeWhile_cons, keepByte_of_ne ha, ih h']
    simp

theorem scanBytes_eq (blk : List Nat) : ∀ acc, scanBytes acc blk =
    if sentinel ∈ blk then .inl (acc ++ blk.takeWhile keepByte)
    else .inr (acc ++ blk) := by
  induction blk with
  | nil => intro acc; simp [scanBytes]
  | cons b bs ih =>
    intro acc
    by_cases hb : b = sentinel
    · subst hb
      rw [scanBytes, if_pos rfl, if_pos (List.mem_cons_self _ _),
        List.takeWhile_cons, keepByte_sentinel]
      simp
    · have hmem : (sentinel ∈ b :: bs) ↔ (sentinel ∈ bs) := by
        simp [List.mem_cons, Ne.symm hb]
      rw [scanBytes, if_neg hb, ih]
      by_cases hs : sentinel ∈ bs
      · rw [if_pos hs, if_pos (hmem.mpr hs), List.takeWhile_cons, keepByte_of_ne hb]
        simp [List.append_assoc]
      · rw [if_neg hs, if_neg (fun hh => hs (hmem.mp hh))]
        simp [List.append_assoc]

theorem read_i2c_string_block_eq (blocks : List (List Nat)) : ∀ acc,
    read_i2c_string_block acc blocks =
      if sentinel ∈ blocks.flatten
      then some (acc ++ blocks.flatten.takeWhile keepByte)
      else none := by
  induction blocks with
  | nil => intro acc; simp [read_i2c_string_block]
  | cons blk rest ih =>
    intro acc
    have hscan := scanBytes_eq blk acc
    by_cases hb : sentinel ∈ blk
    · rw [if_pos hb] at hscan
      have hj : sentinel ∈ (blk :: rest).flatten := by
        rw [List.flatten_cons, List.mem_append]; exact Or.inl hb
      rw [read_i2c_string_block, hscan]
      dsimp only
      rw [if_pos hj, List.flatten_cons, takeWhile_keepByte_stop _ hb]
    · rw [if_neg hb] at hscan
      rw [read_i2c_string_block, hscan]
      dsimp only
      rw [ih]
      by_cases hs : sentinel ∈ rest.flatten
      · have hj : sentinel ∈ (blk :: rest).flatten := by
          rw [List.flatten_cons, List.mem_append]; exact Or.inr hs
        rw [if_pos hs, if_pos hj, List.flatten_cons, takeWhile_keepByte_pass _ hb,
          List.append_assoc]
      · have hj : sentinel ∉ (blk :: rest).flatten := by
          rw [List.flatten_cons, List.mem_append]
          rintro (h | h)
          · exact hb h
          · exact hs h
        rw [if_neg hs, if_neg hj]

/-- ASCII bytes of a string, as the Python code sees them
(`[ord(c) for c in s]` / `chr` on the way back). -/
def asciiBytes (s : String) : List Nat := s.data.map Char.toNat

/-- C1: the claim says `read_i2c_string_block` imposes a bound on accumulated
bytes or block reads and fails with a `FramingError` when a sentinel never
arrives. The code has no such bound: this theorem shows that against any finite
list of sentinel-free blocks the function has not returned — i.e. the
`while True` loop keeps reading blocks forever, however many it is given. -/
theorem read_i2c_no_sentinel_never_returns (blocks : List (List Nat))
    (h : ∀ blk ∈ blocks, sentinel ∉ blk) :
    read_i2c_string_block [] blocks = none := by
  rw [read_i2c_string_block_eq]
  have hflat : sentinel ∉ blocks.flatten := by
    intro hc
    rcases List.mem_flatten.1 hc with ⟨blk, hblk, hmem⟩
    exact h blk hblk hmem
  rw [if_neg hflat]

/-- Witness for C1: five all-zero 20-byte blocks (a device that never sends
`#`) are all consumed with no result. -/
theorem read_i2c_no_sentinel_never_returns_witness :
    (∀ blk ∈ List.replicate 5 (List.replicate 20 0), sentinel ∉ blk) ∧
    read_i2c_string_block [] (List.replicate 5 (List.replicate 20 0)) = none :=
  ⟨by decide, read_i2c_no_sentinel_never_returns _ (by decide)⟩

/-- C2: if the concatenation of the blocks contains a sentinel,
`read_i2c_string_block` returns exactly the bytes preceding the first
sentinel (wherever in a block it falls), and the result contains no
sentinel byte. -/
theorem read_i2c_decodes_before_first_sentinel (blocks : List (List Nat))
    (h : sentinel ∈ blocks.flatten) :
    read_i2c_string_block [] blocks = some (blocks.flatten.takeWhile keepByte) ∧
    sentinel ∉ blocks.flatten.takeWhile keepByte := by
  refine ⟨?_, ?_⟩
  · rw [read_i2c_string_block_eq, if_pos h, List.nil_append]
  · intro hc
    have hp := List.mem_takeWhile_imp hc
    rw [keepByte_sentinel] at hp
    cases hp

/-- Witness for C2: the spec's example frame `"23.1,45.8#"`, with the sentinel
arriving mid-block (split as `"23.1,"` then `"45.8#"`), decodes to
`"23.1,45.8"`. -/
theorem read_i2c_decodes_before_first_sentinel_witness :
    sentinel ∈ ([asciiBytes "23.1,", asciiBytes "45.8#"] : List (List Nat)).flatten ∧
    read_i2c_string_block [] [asciiBytes "23.1,", asciiBytes "45.8#"] =
      some (asciiBytes "23.1,45.8") := by
  refine ⟨by decide, ?_⟩
  have h := read_i2c_decodes_before_first_sentinel
    [asciiBytes "23.1,", asciiBytes "45.8#"] (by decide)
  rw [h.1]
  decide

/-- C10: decoding returns at the first sentinel: the bytes after the sentinel
in the same block (`post`) are discarded, blocks queued after it (`extra`) are
never consulted, and every call starts from an empty accumulator — the result
is `pre` alone in all cases. -/
theorem read_i2c_discards_after_sentinel (pre post : List Nat)
    (extra : List (List Nat)) (h : sentinel ∉ pre) :
    read_i2c_string_block [] ((pre ++ sentinel :: post) :: extra) = some pre ∧
    read_i2c_string_block [] [pre ++ sentinel :: post] = some pre := by
  have hkey : ∀ tail : List (List Nat),
      read_i2c_string_block [] ((pre ++ sentinel :: post) :: tail) = some pre := by
    intro tail
    have hmem : sentinel ∈ ((pre ++ sentinel :: post) :: tail).flatten := by
      rw [List.flatten_cons, List.mem_append]
      exact Or.inl (List.mem_append.2 (Or.inr (List.mem_cons_self _ _)))
    rw [read_i2c_string_block_eq, if_pos hmem, List.nil_append, List.flatten_cons,
      List.append_assoc, takeWhile_keepByte_pass _ h, List.cons_append,
      List.takeWhile_cons, keepByte_sentinel]
    simp
  exact ⟨hkey extra, hkey []⟩

/-- Witness for C10: `"ab#cd"` followed by a further sentinel-only block decodes
to `"ab"`; the trailing `"cd"` and the later block are dropped. -/
theorem read_i2c_discards_after_sentinel_witness :
    sentinel ∉ asciiBytes "ab" ∧
    read_i2c_string_block []
      ((asciiBytes "ab" ++ sentinel :: asciiBytes "cd") :: [[sentinel]]) =
      some (asciiBytes "ab") ∧
    read_i2c_string_block [] [asciiBytes "ab" ++ sentinel :: asciiBytes "cd"] =
      some (asciiBytes "ab") := by
  have h := read_i2c_discards_after_sentinel (asciiBytes "ab") (asciiBytes "cd")
    [[sentinel]] (by decide)
  exact ⟨by decide, h.1, h.2⟩

/-- Python `str.split` with a one-character separator: split at every
occurrence, keeping empty segments (`"a,,b".split(',') == ['a','','b']`,
`"".split(',') == ['']`). -/
def pySplitChar (sep : Char) : List Char → List (List Char)
  | [] => [[]]
  | c :: cs =>
    if c = sep then [] :: pySplitChar sep cs
    else
      match pySplitChar sep cs with
      | [] => [[c]]
      | p :: ps => (c :: p) :: ps

theorem pySplitChar_no_sep {sep : Char} {s : List Char} (h : sep ∉ s) :
    pySplitChar sep s = [s] := by
  induction s with
  | nil => rfl
  | cons c cs ih =>
    have hc : c ≠ sep := fun hh => h (hh ▸ List.mem_cons_self c cs)
    have h' : sep ∉ cs := fun hh => h (List.mem_cons_of_mem c hh)
    rw [pySplitChar, if_neg hc, ih h']

theorem pySplitChar_sep_append {sep : Char} {t : List Char} (rest : List Char)
    (h : sep ∉ t) :
    pySplitChar sep (t ++ sep :: rest) = t :: pySplitChar sep rest := by
  induction t with
  | nil => rw [List.nil_append, pySplitChar, if_pos rfl]
  | cons c t' ih =>
    have hc : c ≠ sep := fun hh => h (hh ▸ List.mem_cons_self c t')
    have h' : sep ∉ t' := fun hh => h (List.mem_cons_of_mem c hh)
    rw [List.cons_append, pySplitChar, if_neg hc, ih h']

theorem pySplitChar_length (sep : Char) (s : List Char) :
    (pySplitChar sep s).length = s.count sep + 1 := by
  induction s with
  | nil => rfl
  | cons c cs ih =>
    by_cases hc : c = sep
    · subst hc
      rw [pySplitChar, if_pos rfl]
      simp [List.count_cons, ih]
    · rw [pySplitChar, if_neg hc]
      rcases hsp : pySplitChar sep cs with _ | ⟨p, ps⟩
      · rw [hsp] at ih; cases ih
      · rw [hsp] at ih
        simpa [List.count_cons, hc] using ih

/-- Outcome of the `if ',' in data_str` / `temp, hum = data_str.split(',')`
step of `main` in `read_i2c.py`: `malformed` is the `else` branch
(`print("Invalid I2C data")`, nothing forwarded); `fields` is a successful
unpack into exactly two parts; `unpackError` is the `ValueError` raised by
unpacking a split of length ≠ 2, caught by the surrounding
`except Exception` (nothing forwarded). -/
inductive UplinkParse where
  | malformed (s : List Char)
  | fields (t h : List Char)
  | unpackError (s : List Char)
deriving DecidableEq

/-- The parse step of `main` in `read_i2c.py`, lines 131-136. -/
def uplinkParse (s : List Char) : UplinkParse :=
  if ',' ∈ s then
    match pySplitChar ',' s with
    | [t, h] => .fields t h
    | _ => .unpackError s
  else .malformed s

/-- C3 counterexample: `"1,2,3"` contains a comma, yet `main` does not forward
the substrings around the first comma (`"1"` and `"2,3"`): the two-name unpack
of a three-part split raises, the frame is dropped. -/
theorem uplinkParse_first_comma_counterexample :
    ',' ∈ ("1,2,3".data) ∧
    uplinkParse ("1,2,3".data) ≠ .fields ("1".data) ("2,3".data) := by
  decide

/-- C3 (amended): the decoded string is split on commas; no comma means the
frame is `Malformed` and rejected; exactly one comma means the substrings
before and after it are the ordered `(temperature, humidity)` fields; two or
more commas make the two-name unpack fail, so the frame is likewise rejected
without any forward attempt. -/
theorem uplinkParse_spec (s : List Char) :
    (',' ∉ s → uplinkParse s = .malformed s) ∧
    (∀ t h, s = t ++ ',' :: h → ',' ∉ t → ',' ∉ h →
      uplinkParse s = .fields t h) ∧
    (2 ≤ s.count ',' → uplinkParse s = .unpackError s) := by
  refine ⟨?_, ?_, ?_⟩
  · intro hnot
    rw [uplinkParse, if_neg hnot]
  · rintro t h rfl ht hh
    have hmem : ',' ∈ t ++ ',' :: h :=
      List.mem_append.2 (Or.inr (List.mem_cons_self _ _))
    rw [uplinkParse, if_pos hmem, pySplitChar_sep_append h ht, pySplitChar_no_sep hh]
  · intro hcount
    have hmem : ',' ∈ s := by
      by_contra hnot
      rw [List.count_eq_zero.2 hnot] at hcount
      omega
    have hlen := pySplitChar_length ',' s
    rw [uplinkParse, if_pos hmem]
    rcases hsp : pySplitChar ',' s with _ | ⟨a, _ | ⟨b, _ | ⟨c, tl⟩⟩⟩
    · exfalso
      rw [hsp] at hlen
      simp only [List.length_nil, List.length_cons] at hlen
      omega
    · exfalso
      rw [hsp] at hlen
      simp only [List.length_nil, List.length_cons] at hlen
      omega
    · exfalso
      rw [hsp] at hlen
      simp only [List.length_nil, List.length_cons] at hlen
      omega
    · rfl

/-- Witness for C3: the spec's two examples, plus the multi-comma rejection. -/
theorem uplinkParse_spec_witness :
    uplinkParse ("23.1,45.8".data) = .fields ("23.1".data) ("45.8".data) ∧
    uplinkParse ("novalue".data) = .malformed ("novalue".data) ∧
    uplinkParse ("1,2".data ++ ',' :: "3".data) = .unpackError ("1,2".data ++ ',' :: "3".data) :=
  ⟨(uplinkParse_spec _).2.1 ("23.1".data) ("45.8".data) (by decide) (by decide) (by decide),
   (uplinkParse_spec _).1 (by decide),
   (uplinkParse_spec _).2.2 (by decide)⟩

/-- One HTTP POST attempt (`requests.post` to `/sensors/add`). -/
structure Post where
  sensor_type : List Char
  value : List Char
deriving DecidableEq

/-- Transport-level outcome of a POST: 2xx, non-2xx status (makes
`raise_for_status` raise `HTTPError`), or a network error (timeout,
connection refused — `requests.post` itself raises). -/
inductive HttpOutcome where
  | ok2xx
  | non2xx
  | netError
deriving DecidableEq

/-- `send_to_server` of `read_i2c.py`: performs one POST and wraps it in
`try/except requests.RequestException`. Result: the attempts made, and whether
an exception escapes to the caller. Both `HTTPError` (non-2xx, raised by
`r.raise_for_status()`) and network errors are subclasses of
`RequestException`, so every branch is caught and `false` is returned. -/
def send_to_server (http : Post → HttpOutcome) (st v : List Char) :
    List Post × Bool :=
  ([⟨st, v⟩],
    match http ⟨st, v⟩ with
    | .ok2xx => false
    | .non2xx => false
    | .netError => false)

/-- One iteration of `main` in `read_i2c.py` after a successful decode: parse
`s`, and on success forward temperature then humidity via `send_to_server`.
An exception escaping the first send (flag `true`) would abort the iteration
before the second send, as the outer `except Exception` catches it. Returns
the list of POST attempts issued, in order. -/
def uplinkIteration (http : Post → HttpOutcome) (s : List Char) : List Post :=
  match uplinkParse s with
  | .fields t h =>
    let r1 := send_to_server http ("temperature_msa_room".data) t
    if r1.2 then r1.1
    else r1.1 ++ (send_to_server http ("humidity_msa_room".data) h).1
  | _ => []

/-- C5: on every frame that parses into two fields, the iteration issues
exactly the two POSTs, one per field, whatever the transport outcome of each
POST is (`http` is universally quantified, so a failing first POST cannot
suppress the second, abort the loop, or add a retry). -/
theorem uplink_two_posts (http : Post → HttpOutcome) (s t h : List Char)
    (hp : uplinkParse s = .fields t h) :
    uplinkIteration http s =
      [⟨"temperature_msa_room".data, t⟩, ⟨"humidity_msa_room".data, h⟩] := by
  unfold uplinkIteration
  rw [hp]
  dsimp only [send_to_server]
  cases http ⟨"temperature_msa_room".data, t⟩ <;> rfl

/-- Witness for C5: every POST failing at the transport level
(`fun _ => netError`) still yields both attempts for `"23.1,45.8"`. -/
theorem uplink_two_posts_witness :
    uplinkParse ("23.1,45.8".data) = .fields ("23.1".data) ("45.8".data) ∧
    uplinkIteration (fun _ => HttpOutcome.netError) ("23.1,45.8".data) =
      [⟨"temperature_msa_room".data, "23.1".data⟩,
       ⟨"humidity_msa_room".data, "45.8".data⟩] :=
  ⟨by decide, uplink_two_posts _ _ _ _ (by decide)⟩

/-- Numeric value of a run of ASCII digit characters. -/
def digitsVal (ds : List Char) : Nat :=
  ds.foldl (fun a c => a * 10 + (c.toNat - 48)) 0

/-- All characters are ASCII digits. -/
def isDigits (ds : List Char) : Bool :=
  ds.all fun c => c.isDigit

/-- Modelled from Python `float(str)` restricted to plain decimal literals:
optional sign, then `digits`, `digits '.' digits?`, or `'.' digits`
(`float("1.")` and `float(".5")` are accepted by Python, `float(".")` is not).
Exponent notation, `inf`/`nan`, underscores and surrounding whitespace are
accepted by CPython but never occur in this system's payloads; they are outside
the model and map to `none` like any other unparsable string. The value is
kept exact as a rational. -/
def pyFloatCore (cs : List Char) : Option ℚ :=
  match pySplitChar '.' cs with
  | [ds] => if ds ≠ [] ∧ isDigits ds then some (mkRat (digitsVal ds) 1) else none
  | [ip, fp] =>
    if (ip ≠ [] ∨ fp ≠ []) ∧ isDigits ip ∧ isDigits fp then
      some (mkRat (digitsVal ip * 10 ^ fp.length + digitsVal fp) (10 ^ fp.length))
    else none
  | _ => none

/-- Python `float()` applied to a string: strip one optional leading sign. -/
def pyFloat (s : String) : Option ℚ :=
  match s.data with
  | '-' :: rest => (pyFloatCore rest).map (fun q => -q)
  | '+' :: rest => pyFloatCore rest
  | cs => pyFloatCore cs

/-- ASCII decimal digit character for `m < 10` (such as Python produces). -/
def digitChar10 (m : Nat) : Char :=
  if m = 0 then '0' else if m = 1 then '1' else if m = 2 then '2'
  else if m = 3 then '3' else if m = 4 then '4' else if m = 5 then '5'
  else if m = 6 then '6' else if m = 7 then '7' else if m = 8 then '8' else '9'

/-- Decimal digit characters of `n`, most significant first; `fuel` bounds the
recursion depth (callers pass `n + 1`, always enough). -/
def natDigitsAux : Nat → Nat → List Char
  | 0, _ => []
  | fuel + 1, n =>
    if n < 10 then [digitChar10 n]
    else natDigitsAux fuel (n / 10) ++ [digitChar10 (n % 10)]

/-- Decimal digit characters of a natural number, e.g. `123 ↦ ['1','2','3']`. -/
def natDigits (n : Nat) : List Char := natDigitsAux (n + 1) n

/-- Smallest `k ≤ 20` with `den ∣ 10 ^ k`: the number of decimal fraction
digits needed for a rational with a finite decimal expansion. -/
def decExp (den : Nat) : Option Nat :=
  (List.range 21).find? fun k => den ∣ 10 ^ k

/-- Sign prefix of a stringified number (a rational is negative iff its
numerator is). -/
def pySign (q : ℚ) : List Char := if q.num < 0 then ['-'] else []

/-- Modelled from Python `str(float)` (the f-string `f"{value}"` of the
source): sign, integer part, `'.'`, fractional digits with no trailing zeros
but at least one digit (`str(1.0) == "1.0"`, `str(0.5) == "0.5"`). Exact for
the short decimal values this system exchanges; a rational with no finite
decimal expansion of at most 20 digits is outside the modelled domain and is
rendered as a fraction. -/
def pyStrChars (q : ℚ) : List Char :=
  match decExp q.den with
  | none => pySign q ++ natDigits q.num.natAbs ++ ['/'] ++ natDigits q.den
  | some 0 => pySign q ++ natDigits (q.num.natAbs / q.den) ++ ['.', '0']
  | some (k + 1) =>
    pySign q ++
      natDigits (q.num.natAbs * (10 ^ (k + 1) / q.den) / 10 ^ (k + 1)) ++ ['.'] ++
      List.replicate
        ((k + 1) -
          (natDigits (q.num.natAbs * (10 ^ (k + 1) / q.den) % 10 ^ (k + 1))).length)
        '0' ++
      natDigits (q.num.natAbs * (10 ^ (k + 1) / q.den) % 10 ^ (k + 1))

theorem digitChar10_toNat_ne_sentinel (m : Nat) : (digitChar10 m).toNat ≠ sentinel := by
  unfold digitChar10
  split_ifs <;> decide

theorem natDigitsAux_concat (fuel n : Nat) :
    ∃ l, natDigitsAux (fuel + 1) n = l ++ [digitChar10 (n % 10)] := by
  rw [natDigitsAux]
  by_cases h : n < 10
  · exact ⟨[], by rw [if_pos h, Nat.mod_eq_of_lt h]; rfl⟩
  · exact ⟨_, by rw [if_neg h]⟩

theorem natDigits_concat (n : Nat) :
    ∃ l, natDigits n = l ++ [digitChar10 (n % 10)] :=
  natDigitsAux_concat n n

theorem pyStrChars_eq_of_none {q : ℚ} (h : decExp q.den = none) :
    pyStrChars q = pySign q ++ natDigits q.num.natAbs ++ ['/'] ++ natDigits q.den := by
  unfold pyStrChars
  rw [h]

theorem pyStrChars_eq_of_zero {q : ℚ} (h : decExp q.den = some 0) :
    pyStrChars q = pySign q ++ natDigits (q.num.natAbs / q.den) ++ ['.', '0'] := by
  unfold pyStrChars
  rw [h]

theorem pyStrChars_eq_of_succ {q : ℚ} {k : Nat} (h : decExp q.den = some (k + 1)) :
    pyStrChars q = pySign q ++
      natDigits (q.num.natAbs * (10 ^ (k + 1) / q.den) / 10 ^ (k + 1)) ++ ['.'] ++
      List.replicate
        ((k + 1) -
          (natDigits (q.num.natAbs * (10 ^ (k + 1) / q.den) % 10 ^ (k + 1))).length)
        '0' ++
      natDigits (q.num.natAbs * (10 ^ (k + 1) / q.den) % 10 ^ (k + 1)) := by
  unfold pyStrChars
  rw [h]

/-- A stringified float always ends in a non-sentinel character (a digit). -/
theorem pyStrChars_last (q : ℚ) :
    ∃ l c, pyStrChars q = l ++ [c] ∧ c.toNat ≠ sentinel := by
  rcases hd : decExp q.den with _ | (_ | k)
  · obtain ⟨l, hl⟩ := natDigits_concat q.den
    refine ⟨pySign q ++ natDigits q.num.natAbs ++ ['/'] ++ l,
      digitChar10 (q.den % 10), ?_, digitChar10_toNat_ne_sentinel _⟩
    rw [pyStrChars_eq_of_none hd, hl]
    simp [List.append_assoc]
  · refine ⟨pySign q ++ natDigits (q.num.natAbs / q.den) ++ ['.'], '0', ?_, by decide⟩
    rw [pyStrChars_eq_of_zero hd]
    simp [List.append_assoc]
  · obtain ⟨l, hl⟩ :=
      natDigits_concat (q.num.natAbs * (10 ^ (k + 1) / q.den) % 10 ^ (k + 1))
    refine ⟨pySign q ++
        natDigits (q.num.natAbs * (10 ^ (k + 1) / q.den) / 10 ^ (k + 1)) ++ ['.'] ++
        List.replicate
          ((k + 1) -
            (natDigits (q.num.natAbs * (10 ^ (k + 1) / q.den) % 10 ^ (k + 1))).length)
          '0' ++ l,
      digitChar10 (q.num.natAbs * (10 ^ (k + 1) / q.den) % 10 ^ (k + 1) % 10),
      ?_, digitChar10_toNat_ne_sentinel _⟩
    rw [pyStrChars_eq_of_succ hd, hl]
    simp [List.append_assoc]

/-- `send_i2c_status` of `rpi_server_iot_informer.py`, message construction:
`message = f"{sensor_type},{value}#"`, as characters (the caller passes
`value` as a float; the f-string stringifies it, modelled by `pyStrChars`). -/
def send_i2c_status_msg (sensor_type value : List Char) : List Char :=
  sensor_type ++ [','] ++ value ++ ['#']

/-- `data_bytes = [ord(c) for c in message]` — the block written to the bus. -/
def send_i2c_status_bytes (sensor_type value : List Char) : List Nat :=
  (send_i2c_status_msg sensor_type value).map Char.toNat

/-- C4: for every sensor type and float value, the encoded frame is the bytes
of `"{sensor_type},{value}#"` and ends with exactly one sentinel byte (the
byte before the final `#` is a digit of the stringified value, never another
sentinel); encoding `("bathroom_main", 1.0)` yields exactly the bytes of
`"bathroom_main,1.0#"`. -/
theorem send_i2c_status_spec (st : List Char) (q : ℚ) :
    send_i2c_status_bytes st (pyStrChars q) =
      (st ++ [','] ++ pyStrChars q).map Char.toNat ++ [sentinel] ∧
    (∃ pre, send_i2c_status_bytes st (pyStrChars q) = pre ++ [sentinel] ∧
      pre.getLast? ≠ some sentinel) ∧
    send_i2c_status_bytes ("bathroom_main".data) (pyStrChars 1) =
      asciiBytes "bathroom_main,1.0#" := by
  obtain ⟨l, c, hl, hc⟩ := pyStrChars_last q
  have hshape : send_i2c_status_bytes st (pyStrChars q) =
      (st ++ [','] ++ pyStrChars q).map Char.toNat ++ [sentinel] := by
    rw [send_i2c_status_bytes, send_i2c_status_msg, List.map_append]
    rfl
  refine ⟨hshape, ⟨(st ++ [','] ++ pyStrChars q).map Char.toNat, hshape, ?_⟩, by decide⟩
  have hmap : (st ++ [','] ++ pyStrChars q).map Char.toNat =
      ((st ++ [','] ++ l).map Char.toNat) ++ [c.toNat] := by
    rw [hl]
    simp [List.map_append, List.append_assoc]
  rw [hmap, List.getLast?_concat]
  intro hcontra
  exact hc (Option.some.inj hcontra)

/-- One reading as returned by `GET /sensors/get` and consumed by the
downlink loop (`data[0]["value"]`). -/
structure Reading where
  sensor_type : String
  value : String
  timestamp : String
deriving DecidableEq

/-- Outcome of the downlink HTTP GET: network error (`requests.get` raises),
non-2xx status (`raise_for_status` raises), or a JSON list of readings. -/
inductive GetResult where
  | netError
  | non2xx
  | ok (data : List Reading)

/-- `get_latest_bathroom_status` of `rpi_server_iot_informer.py`: any raised
exception (network, non-2xx, `float(...)` parse failure) is caught by the
surrounding `except Exception` and becomes `None`; an empty JSON list (falsy
`if data`) also returns `None`; otherwise the first entry's `value` is parsed
as a float. -/
def get_latest_bathroom_status (res : GetResult) : Option ℚ :=
  match res with
  | .netError => none
  | .non2xx => none
  | .ok [] => none
  | .ok (r :: _) => pyFloat r.value

/-- One iteration of the downlink `main` of `rpi_server_iot_informer.py`:
if the fetched status is not `None`, write one encoded frame for
`"bathroom_main"` to the bus; the result lists the bus writes performed. -/
def downlink_main_iteration (res : GetResult) : List (List Nat) :=
  match get_latest_bathroom_status res with
  | none => []
  | some q => [send_i2c_status_bytes ("bathroom_main".data) (pyStrChars q)]

/-- C6: a GET result `[{"sensor_type":"bathroom_main","value":"1.0",...}]`
(any timestamp) makes the downlink iteration write exactly the frame
`"bathroom_main,1.0#"` to the bus. -/
theorem downlink_writes_latest_frame (ts : String) :
    downlink_main_iteration (.ok [⟨"bathroom_main", "1.0", ts⟩]) =
      [asciiBytes "bathroom_main,1.0#"] := by
  have hq : pyFloat "1.0" = some 1 := by decide
  unfold downlink_main_iteration get_latest_bathroom_status
  dsimp only
  rw [hq]
  decide

/-- Witness for C6: the frame is written for a concrete timestamp too. -/
theorem downlink_writes_latest_frame_witness :
    downlink_main_iteration (.ok [⟨"bathroom_main", "1.0", "2025-12-09 10:00:00"⟩]) =
      [asciiBytes "bathroom_main,1.0#"] :=
  downlink_writes_latest_frame "2025-12-09 10:00:00"

/-- C7: whenever the GET fails, returns an empty list, or returns a first
element whose value does not parse as a float, the downlink iteration
performs zero bus writes. -/
theorem downlink_zero_writes_on_failure (res : GetResult)
    (h : res = .netError ∨ res = .non2xx ∨ res = .ok [] ∨
      ∃ r tl, res = .ok (r :: tl) ∧ pyFloat r.value = none) :
    downlink_main_iteration res = [] := by
  rcases h with rfl | rfl | rfl | ⟨r, tl, rfl, hv⟩
  · rfl
  · rfl
  · rfl
  · unfold downlink_main_iteration get_latest_bathroom_status
    dsimp only
    rw [hv]

/-- Witness for C7: a first element whose value `"notanumber"` fails to parse
yields zero bus writes. -/
theorem downlink_zero_writes_on_failure_witness :
    (∃ r tl, (GetResult.ok [⟨"bathroom_main", "notanumber", "ts"⟩] : GetResult) =
      .ok (r :: tl) ∧ pyFloat r.value = none) ∧
    downlink_main_iteration (.ok [⟨"bathroom_main", "notanumber", "ts"⟩]) = [] :=
  ⟨⟨⟨"bathroom_main", "notanumber", "ts"⟩, [], rfl, by decide⟩,
   downlink_zero_writes_on_failure _
     (Or.inr (Or.inr (Or.inr ⟨⟨"bathroom_main", "notanumber", "ts"⟩, [], rfl, by decide⟩)))⟩

/-- A row of the backend's `sensor_data` table: `id INTEGER PRIMARY KEY
AUTOINCREMENT` (so ids strictly increase in insertion order), the two stored
form fields, and the SQLite-assigned timestamp. -/
structure SensorRow where
  id : Nat
  sensor_type : String
  value : String
  timestamp : String
deriving DecidableEq

/-- Python truthiness of `request.form.get(...)` / `request.args.get(...)`:
an absent parameter is `None` and an empty string is falsy, both fail an
`if sensor_type:`-style test. -/
def pyTruthy : Option String → Bool
  | none => false
  | some s => s != ""

/-- HTTP response of the `add` handler: JSON status body plus status code. -/
structure AddResp where
  status : String
  httpCode : Nat
deriving DecidableEq

/-- `add` handler of `api/routes/sensors.py` (POST `/sensors/add`): reads the
two form fields, inserts a row only when both are truthy (SQLite assigns
`freshId` and `ts`), and unconditionally responds `{"status": "ok"}` with
HTTP 200. Returns the response and the table after the request. -/
def sensors_add (sensor_type value : Option String) (db : List SensorRow)
    (freshId : Nat) (ts : String) : AddResp × List SensorRow :=
  if pyTruthy sensor_type && pyTruthy value then
    (⟨"ok", 200⟩, db ++ [⟨freshId, sensor_type.getD "", value.getD "", ts⟩])
  else
    (⟨"ok", 200⟩, db)

/-- HTTP response of the `get` handler. -/
inductive GetResp where
  | badRequest (code : Nat)
  | okList (rows : List Reading)
deriving DecidableEq

/-- Projection of a table row to the JSON dict the `get` handler emits
(`{"sensor_type": r[0], "value": r[1], "timestamp": r[2]}`). -/
def rowToReading (r : SensorRow) : Reading :=
  ⟨r.sensor_type, r.value, r.timestamp⟩

/-- `get` handler of `api/routes/sensors.py` (GET `/sensors/get`): a falsy
`sensor_type` parameter yields HTTP 400 before any database access; otherwise
`SELECT sensor_type, value, timestamp FROM sensor_data WHERE sensor_type = ?
ORDER BY id DESC LIMIT ?` runs (`ORDER BY id DESC` modelled as sorting by
descending id). The second component counts database queries executed. -/
def sensors_get (sensor_type : Option String) (limit : Nat)
    (db : List SensorRow) : GetResp × Nat :=
  if pyTruthy sensor_type then
    (.okList ((((db.filter fun r => r.sensor_type == sensor_type.getD "").mergeSort
      fun a b => b.id ≤ a.id).take limit).map rowToReading), 1)
  else
    (.badRequest 400, 0)

/-- Sorting strictly-increasing-id rows by descending id reverses them. -/
theorem mergeSort_desc_eq_reverse (l : List SensorRow)
    (hl : l.Pairwise fun a b => a.id < b.id) :
    (l.mergeSort fun a b => b.id ≤ a.id) = l.reverse := by
  have hsorted := @List.sorted_mergeSort SensorRow
    (fun a b : SensorRow => decide (b.id ≤ a.id))
    (fun a b c hab hbc => by
      simp only [decide_eq_true_eq] at *
      omega)
    (fun a b => by
      simp only [Bool.or_eq_true, decide_eq_true_eq]
      omega) l
  have hperm := List.mergeSort_perm l (fun a b : SensorRow => decide (b.id ≤ a.id))
  have hne : l.Pairwise fun a b => a.id ≠ b.id := hl.imp fun h => by omega
  have hne' : (l.mergeSort (fun a b : SensorRow => decide (b.id ≤ a.id))).Pairwise
      (fun a b => a.id ≠ b.id) :=
    (hperm.pairwise_iff fun h => h.symm).2 hne
  have hstrict : (l.mergeSort (fun a b : SensorRow => decide (b.id ≤ a.id))).Pairwise
      (fun a b => b.id < a.id) :=
    (hsorted.and hne').imp fun h => by
      have h1 := h.1
      have h2 := h.2
      simp only [decide_eq_true_eq] at h1
      omega
  have hrev : l.reverse.Pairwise fun a b => b.id < a.id :=
    List.pairwise_reverse.2 hl
  have hperm2 : List.Perm (l.mergeSort (fun a b : SensorRow => decide (b.id ≤ a.id)))
      l.reverse :=
    hperm.trans l.reverse_perm.symm
  haveI : IsAntisymm SensorRow (fun a b => b.id < a.id) :=
    ⟨fun a b h1 h2 => absurd (Nat.lt_trans h1 h2) (Nat.lt_irrefl _)⟩
  exact List.eq_of_perm_of_sorted hperm2 hstrict hrev

/-- C8 counterexample: two concrete violations of the claim. (i) Eleven
stored readings for sensor `"t"`, queried with the handler's default
`limit = 10`: the response is not the full newest-first sequence of readings
for that sensor — the `LIMIT` clause truncates it. (ii) `sensor_type`
supplied as the empty string (`?sensor_type=`): the claim predicts the
(empty) sequence of that sensor's readings, but the falsy-parameter check
answers HTTP 400 with no database query. -/
theorem sensors_get_limit_counterexample :
    (sensors_get (some "t") 10 ((List.range 11).map fun i => ⟨i, "t", "v", "ts"⟩) ≠
      (.okList (((((List.range 11).map fun i => (⟨i, "t", "v", "ts"⟩ : SensorRow)).filter
        fun r => r.sensor_type == "t").reverse).map rowToReading), 1)) ∧
    sensors_get (some "") 10 [⟨1, "t", "v", "ts"⟩] = (.badRequest 400, 0) ∧
    sensors_get (some "") 10 [⟨1, "t", "v", "ts"⟩] ≠ (.okList [], 1) := by
  refine ⟨?_, by decide, by decide⟩
  have hdb : (((List.range 11).map fun i => (⟨i, "t", "v", "ts"⟩ : SensorRow)).filter
      fun r => r.sensor_type == "t").Pairwise fun a b => a.id < b.id := by
    decide
  rw [sensors_get, if_pos (by decide), Option.getD_some, mergeSort_desc_eq_reverse _ hdb]
  decide

/-- C8 (amended): a missing `sensor_type` query parameter — or one supplied as
the empty string, which the handler's falsy test treats the same way — yields
HTTP 400 with no database query; a supplied non-empty `sensor_type` yields the
newest-first (descending id, i.e. reverse insertion order) sequence of
readings for that sensor, truncated to the `limit` parameter (default 10),
via one query. -/
theorem sensors_get_spec (st? : Option String) (limit : Nat) (db : List SensorRow)
    (hdb : db.Pairwise fun a b => a.id < b.id) :
    (st? = none ∨ st? = some "" →
      sensors_get st? limit db = (.badRequest 400, 0)) ∧
    (∀ st, st? = some st → st ≠ "" →
      sensors_get st? limit db =
        (.okList ((((db.filter fun r => r.sensor_type == st).reverse).take
          limit).map rowToReading), 1)) := by
  constructor
  · rintro (rfl | rfl) <;> rfl
  · rintro st rfl hst
    have htruthy : pyTruthy (some st) = true := by
      simp [pyTruthy, hst]
    have hfil : ((db.filter fun r => r.sensor_type == st).Pairwise
        fun a b => a.id < b.id) :=
      hdb.sublist (List.filter_sublist db)
    rw [sensors_get, if_pos htruthy]
    rw [Option.getD_some, mergeSort_desc_eq_reverse _ hfil]

/-- Witness for C8: three readings for `"t"` come back newest-first; a missing
parameter and an empty-string parameter both yield 400 and no query. -/
theorem sensors_get_spec_witness :
    sensors_get (some "t") 10
      [⟨1, "t", "a", "x"⟩, ⟨2, "t", "b", "y"⟩, ⟨3, "u", "c", "z"⟩] =
      (.okList [⟨"t", "b", "y"⟩, ⟨"t", "a", "x"⟩], 1) ∧
    sensors_get none 10
      [⟨1, "t", "a", "x"⟩, ⟨2, "t", "b", "y"⟩, ⟨3, "u", "c", "z"⟩] =
      (.badRequest 400, 0) ∧
    sensors_get (some "") 10
      [⟨1, "t", "a", "x"⟩, ⟨2, "t", "b", "y"⟩, ⟨3, "u", "c", "z"⟩] =
      (.badRequest 400, 0) := by
  refine ⟨?_, ?_, ?_⟩
  · rw [(sensors_get_spec (some "t") 10 _ (by decide)).2 "t" rfl (by decide)]
    decide
  · exact (sensors_get_spec none 10 _ (by decide)).1 (Or.inl rfl)
  · exact (sensors_get_spec (some "") 10 _ (by decide)).1 (Or.inr rfl)

/-- C9: a POST with a missing or empty `sensor_type` or `value` form field
inserts no row yet still answers `{"status": "ok"}` / 200 — and every request,
stored or dropped, gets that same response, so the caller cannot tell the two
apart. -/
theorem sensors_add_silent_drop (st v : Option String) (db : List SensorRow)
    (fid : Nat) (ts : String)
    (h : st = none ∨ st = some "" ∨ v = none ∨ v = some "") :
    sensors_add st v db fid ts = (⟨"ok", 200⟩, db) ∧
    ∀ st' v' db' fid' ts',
      (sensors_add st' v' db' fid' ts' : AddResp × List SensorRow).1 = ⟨"ok", 200⟩ := by
  constructor
  · have hfalse : (pyTruthy st && pyTruthy v) = false := by
      rcases h with rfl | rfl | rfl | rfl <;> simp [pyTruthy]
    rw [sensors_add, hfalse]
    rfl
  · intro st' v' db' fid' ts'
    rw [sensors_add]
    split <;> rfl

/-- Witness for C9: a POST missing `sensor_type` leaves the table unchanged
and answers ok/200. -/
theorem sensors_add_silent_drop_witness :
    sensors_add none (some "1.0") [] 7 "ts" = (⟨"ok", 200⟩, []) :=
  (sensors_add_silent_drop none (some "1.0") [] 7 "ts" (Or.inl rfl)).1

end MsaRpi
